import Mathlib

/-!
Verification of `microdb.py` (pymicrodatabase): a small pickled key-value
store.  The Python class `MicroDB` is embedded shallowly: the in-memory
`datastore` dictionary becomes an association list with Python-dict
semantics (first occurrence wins, assignment replaces in place, new keys
append), the file system becomes an association list from paths to the
pickled mapping, and every method becomes a pure function that threads the
store and the file system explicitly.  Python truthiness (`if item:`,
`if self.findkey(key):`) is modelled by `Value.truthy`, and the dynamic
errors Python raises (`TypeError`, `KeyError`, ...) by an `Except PyError`
result.
-/

set_option autoImplicit false

namespace MicroDb

/-- Python values as they occur in the datastore: the JSON universe
(numbers restricted to integers, which suffices for the behaviours under
study). -/
inductive Value where
  | null : Value
  | bool (b : Bool) : Value
  | int (n : Int) : Value
  | str (s : String) : Value
  | list (elems : List Value) : Value
  | dict (fields : List (String × Value)) : Value

/-- Python truthiness of a value: `None`, `False`, `0`, `""` and empty
containers are falsy, everything else is truthy. -/
def Value.truthy : Value → Bool
  | .null => false
  | .bool b => b
  | .int n => n != 0
  | .str s => !(s == "")
  | .list elems => !elems.isEmpty
  | .dict fields => !fields.isEmpty

/-- A pickled dictionary: what one snapshot file holds. -/
abbrev Snapshot := List (String × Value)

/-- Python `d[key]` lookup on a dictionary (first matching entry). -/
def dictLookup : Snapshot → String → Option Value
  | [], _ => none
  | kv :: rest, k => if kv.1 == k then some kv.2 else dictLookup rest k

/-- Python `key in d` membership test on a dictionary. -/
def dictMem (d : Snapshot) (k : String) : Bool :=
  (dictLookup d k).isSome

/-- Python `d[key] = v` assignment: replaces the value in place when the
key is present, otherwise appends the new entry (insertion order). -/
def dictSet : Snapshot → String → Value → Snapshot
  | [], k, v => [(k, v)]
  | kv :: rest, k, v => if kv.1 == k then (kv.1, v) :: rest else kv :: dictSet rest k v

/-- The file system: a map from path to the pickled mapping stored there. -/
abbrev FS := List (String × Snapshot)

/-- Read the snapshot at a path, `none` when no file exists there. -/
def fsRead : FS → String → Option Snapshot
  | [], _ => none
  | fe :: rest, f => if fe.1 == f then some fe.2 else fsRead rest f

/-- Model of `os.path.exists` on our file-system model. -/
def fsExists (fs : FS) (f : String) : Bool :=
  (fsRead fs f).isSome

/-- Model of `open(f, "wb")` followed by `pickle.dump`: (over)write the file. -/
def fsWrite : FS → String → Snapshot → FS
  | [], f, d => [(f, d)]
  | fe :: rest, f, d => if fe.1 == f then (fe.1, d) :: rest else fe :: fsWrite rest f d

/-- Model of `os.remove` on our file-system model. -/
def fsRemove : FS → String → FS
  | [], _ => []
  | fe :: rest, f => if fe.1 == f then rest else fe :: fsRemove rest f

/-- The runtime errors the embedded methods can raise. -/
inductive PyError where
  | typeError : PyError
  | keyError : PyError
  | valueError : PyError
  | notFoundError : PyError
  deriving DecidableEq

/-- The MicroDB instance state: `self.datastore` and `self.filename`. -/
structure Store where
  datastore : Snapshot
  filename : String

/-- Method `MicroDB._store_data(filename)`: pickle `self.datastore` to `filename`
(defaulting to `self.filename`) and return `True`.  The store itself is
untouched. -/
def store_data (db : Store) (fs : FS) (filename : Option String) : FS × Bool :=
  let f := filename.getD db.filename
  (fsWrite fs f db.datastore, true)

/-- Method `MicroDB._load_data(filename, exists)`: if the file exists, unpickle it
into `self.datastore`; otherwise, when `exists` is true the method executes
`raise(ValueError, "Filename does not exist")` — but `raise` applied to a
tuple is invalid in Python 3, so the statement actually raises
`TypeError: exceptions must derive from BaseException`, not the documented
`ValueError`.  When `exists` is false the current datastore is returned
unchanged. -/
def load_data (db : Store) (fs : FS) (filename : Option String) (exist : Bool) :
    Except PyError Store :=
  let f := filename.getD db.filename
  match fsRead fs f with
  | some d => .ok { db with datastore := d }
  | none => if exist then .error PyError.typeError else .ok db

/-- Constructor `MicroDB.__init__(filename, preload, exist)`: start with an empty
datastore and, when `preload` is true, run `_load_data`. -/
def init (fs : FS) (filename : String) (preload : Bool) (exist : Bool) :
    Except PyError Store :=
  let db : Store := { datastore := [], filename := filename }
  if preload then load_data db fs none exist else .ok db

/-- Method `MicroDB.save(filename)`: delegates to `_store_data(filename)`; the
store (in particular `self.filename`) is not modified. -/
def save (db : Store) (fs : FS) (filename : Option String) : Store × FS :=
  (db, (store_data db fs filename).1)

/-- Method `MicroDB.purge(clear_datastore)`: remove the snapshot file at
`self.filename` if it exists.  The body never reads `clear_datastore` and
never touches `self.datastore`. -/
def purge (db : Store) (fs : FS) (clear_datastore : Bool) : Bool × Store × FS :=
  if fsExists fs db.filename then (true, db, fsRemove fs db.filename)
  else (false, db, fs)

/-- Method `MicroDB.add(key, data, save)`: insert only when `key` is absent
(`if not(key in self.datastore)`), persisting when `save` is true;
return `False` without mutation when the key is present. -/
def add (db : Store) (fs : FS) (key : String) (data : Value) (saveFlag : Bool) :
    Bool × Store × FS :=
  if !(dictMem db.datastore key) then
    let db' : Store := { db with datastore := dictSet db.datastore key data }
    (true, db', if saveFlag then (store_data db' fs none).1 else fs)
  else
    (false, db, fs)

/-- Method `MicroDB.update(key, data, save)`: overwrite only when `key` is present
(`if key in self.datastore`), persisting when `save` is true; return
`False` without mutation when the key is absent. -/
def update (db : Store) (fs : FS) (key : String) (data : Value) (saveFlag : Bool) :
    Bool × Store × FS :=
  if dictMem db.datastore key then
    let db' : Store := { db with datastore := dictSet db.datastore key data }
    (true, db', if saveFlag then (store_data db' fs none).1 else fs)
  else
    (false, db, fs)

/-- Method `MicroDB.delete(key, save)`: remove `key` when present. -/
def delete (db : Store) (fs : FS) (key : String) (saveFlag : Bool) :
    Bool × Store × FS :=
  if dictMem db.datastore key then
    let db' : Store := { db with datastore := db.datastore.filter (fun kv => !(kv.1 == key)) }
    (true, db', if saveFlag then (store_data db' fs none).1 else fs)
  else
    (false, db, fs)

/-- Method `MicroDB.findkey(key)`: `return self.datastore[key]` when the key is
present; otherwise the Python function falls off the end and implicitly
returns `None`.  Reads the store and disk without modifying them. -/
def findkey (db : Store) (fs : FS) (key : String) : Value × Store × FS :=
  (match dictLookup db.datastore key with
   | some v => v
   | none => Value.null,
   db, fs)

/-- Method `MicroDB.findkeys(keys)`: loop over `keys`, look each one up with
`findkey`, and append the result only when it is truthy (`if item:`). -/
def findkeys (db : Store) (fs : FS) (keys : List String) : List Value × Store × FS :=
  (keys.foldl
    (fun data key =>
      let item := (findkey db fs key).1
      if item.truthy then data ++ [item] else data)
    [],
   db, fs)

mutual

/-- Python `==` between datastore values: `None`, booleans, integers and
strings compare by value (with `True == 1` and `False == 0` as in Python),
lists compare pointwise, dictionaries compare by keys and values, and any
other combination is unequal. -/
def Value.pyEq (a b : Value) : Bool :=
  match a, b with
  | .null, .null => true
  | .bool x, .bool y => x == y
  | .bool x, .int n => (if x then (1 : Int) else 0) == n
  | .int n, .bool y => n == (if y then (1 : Int) else 0)
  | .int x, .int y => x == y
  | .str x, .str y => x == y
  | .list xs, .list ys => pyEqList xs ys
  | .dict xs, .dict ys => xs.length == ys.length && pyEqSub xs ys
  | _, _ => false
termination_by sizeOf a

/-- Pointwise Python `==` on lists of values. -/
def pyEqList (xs ys : List Value) : Bool :=
  match xs, ys with
  | [], [] => true
  | x :: xrest, y :: yrest => Value.pyEq x y && pyEqList xrest yrest
  | _, _ => false
termination_by sizeOf xs

/-- Every entry of `xs` is present in `ys` with a Python-equal value. -/
def pyEqSub (xs ys : List (String × Value)) : Bool :=
  match xs with
  | [] => true
  | (k, v) :: rest =>
    (match dictLookup ys k with
     | some w => Value.pyEq v w
     | none => false) && pyEqSub rest ys
termination_by sizeOf xs

end

/-- Method `MicroDB.find(data)`: with `data=None` collect every entry as a
singleton dictionary `{k: v}`; otherwise collect entries where
`data == k or data == v`. -/
def find (db : Store) (fs : FS) (data : Option Value) : List Value × Store × FS :=
  (db.datastore.foldl
    (fun found kv =>
      match data with
      | none => found ++ [Value.dict [(kv.1, kv.2)]]
      | some d =>
        if d.pyEq (Value.str kv.1) || d.pyEq kv.2 then found ++ [Value.dict [(kv.1, kv.2)]]
        else found)
    [],
   db, fs)

/-- Method `MicroDB.search(pattern)`: collect the keys whose value is a string
matched by the pattern (`isinstance(value, str)` guard, then `re.search`).
The compiled regular-expression test is abstracted as `matcher`. -/
def search (db : Store) (fs : FS) (matcher : String → Bool) : List String × Store × FS :=
  (db.datastore.foldl
    (fun found kv =>
      match kv.2 with
      | .str s => if matcher s then found ++ [kv.1] else found
      | _ => found)
    [],
   db, fs)

/-- Python `key in v` for a datastore value `v`: key membership for a
dictionary, substring test for a string, element membership for a list,
and `TypeError` (argument not iterable) for `None`, booleans and
numbers. -/
def pyIn (key : String) (v : Value) : Except PyError Bool :=
  match v with
  | .dict fields => .ok (dictMem fields key)
  | .str s => .ok ((List.range (s.length + 1)).any (fun i => key.isPrefixOf (s.drop i)))
  | .list elems => .ok (elems.any (fun e => (Value.str key).pyEq e))
  | _ => .error PyError.typeError

/-- Python `v[key]` for a string subscript: dictionary lookup (raising
`KeyError` when absent) and `TypeError` for every other value (string and
list subscripts must be integers; other values are not subscriptable). -/
def pyIndex (v : Value) (key : String) : Except PyError Value :=
  match v with
  | .dict fields =>
    match dictLookup fields key with
    | some w => .ok w
    | none => .error PyError.keyError
  | _ => .error PyError.typeError

/-- Model of `re.search(pattern, txt)`: succeeds on a string argument (returning
whether the pattern matched), raises `TypeError` on anything else
("expected string or bytes-like object"). -/
def reSearch (matcher : String → Bool) (txt : Value) : Except PyError Bool :=
  match txt with
  | .str s => .ok (matcher s)
  | _ => .error PyError.typeError

/-- The loop body of `MicroDB.search_subkey`: for each entry `(k, v)` run
`if key in v: txt = v[key]; if re.search(pattern, txt): found.append(k)`,
propagating any raised error. -/
def search_subkey_go (key : String) (matcher : String → Bool) :
    Snapshot → List String → Except PyError (List String)
  | [], found => .ok found
  | kv :: rest, found =>
    match pyIn key kv.2 with
    | .error e => .error e
    | .ok c =>
      if c then
        match pyIndex kv.2 key with
        | .error e => .error e
        | .ok txt =>
          match reSearch matcher txt with
          | .error e => .error e
          | .ok x =>
            if x then search_subkey_go key matcher rest (found ++ [kv.1])
            else search_subkey_go key matcher rest found
      else search_subkey_go key matcher rest found

/-- Method `MicroDB.search_subkey(key, pattern)`: scan the datastore with the loop
above, starting from an empty result list. -/
def search_subkey (db : Store) (key : String) (matcher : String → Bool) :
    Except PyError (List String) :=
  search_subkey_go key matcher db.datastore []

/-- Method `MicroDB.append_json(filename, save, duplicate)`, applied to the parsed
JSON content: for each `(key, data)` pair of the file, when
`self.findkey(key)` is truthy take the `add` path, otherwise when
`duplicate` is true take the `update` path, otherwise fail; a falsy
`dsave` is only printed (collected here in the returned log, as the failed
key), never raised.  Afterwards `self.save()` runs when `save` is true,
and the method returns `True` unconditionally. -/
def append_json (db : Store) (fs : FS) (parsed : Snapshot)
    (saveFlag : Bool) (duplicate : Bool) : Bool × Store × FS × List String :=
  let res := parsed.foldl
    (fun (st : Store × FS × List String) kv =>
      let r :=
        if (findkey st.1 st.2.1 kv.1).1.truthy then add st.1 st.2.1 kv.1 kv.2 saveFlag
        else if duplicate then update st.1 st.2.1 kv.1 kv.2 saveFlag
        else (false, st.1, st.2.1)
      (r.2.1, r.2.2, if r.1 then st.2.2 else st.2.2 ++ [kv.1]))
    (db, fs, [])
  let fs2 := if saveFlag then (store_data res.1 res.2.1 none).1 else res.2.1
  (true, res.1, fs2, res.2.2)

/-- The single-entry outcome `search_subkey` produces for one datastore
entry whose value is a dictionary: the outer key when the dictionary holds
a string at `key` that the pattern matches, nothing otherwise. -/
def subkeyMatch (key : String) (matcher : String → Bool) (p : String × Value) :
    Option String :=
  match p.2 with
  | Value.dict fields =>
    match dictLookup fields key with
    | some (Value.str s) => if matcher s then some p.1 else none
    | _ => none
  | _ => none

/-! ### Helper lemmas -/

theorem dictLookup_dictSet_self (d : Snapshot) (k : String) (v : Value) :
    dictLookup (dictSet d k v) k = some v := by
  induction d with
  | nil => simp [dictSet, dictLookup]
  | cons kv rest ih =>
    by_cases h : kv.1 = k
    · simp [dictSet, dictLookup, h]
    · simp [dictSet, dictLookup, h, ih]

theorem fsRead_fsWrite_self (fs : FS) (f : String) (d : Snapshot) :
    fsRead (fsWrite fs f d) f = some d := by
  induction fs with
  | nil => simp [fsWrite, fsRead]
  | cons fe rest ih =>
    by_cases h : fe.1 = f
    · simp [fsWrite, fsRead, h]
    · simp [fsWrite, fsRead, h, ih]

theorem findkeys_foldl_eq (db : Store) (fs : FS) (keys : List String)
    (acc : List Value) :
    keys.foldl
      (fun data key =>
        let item := (findkey db fs key).1
        if item.truthy then data ++ [item] else data)
      acc
      = acc ++ (keys.map (fun k => (findkey db fs k).1)).filter Value.truthy := by
  induction keys generalizing acc with
  | nil => simp
  | cons k ks ih =>
    simp only [List.foldl_cons, List.map_cons, List.filter_cons]
    by_cases h : ((findkey db fs k).1).truthy
    · simp [h, ih]
    · simp [h, ih]

/-! ### Claim theorems -/

/-- C2: after `Add(k, v1)` succeeds, a subsequent `Add(k, v2)` returns
false, performs no mutation of the mapping (the store and the file system
it would have written are returned unchanged), and the value stored at `k`
remains `v1`. -/
theorem add_no_overwrite (db : Store) (fs fs' : FS) (k : String) (v1 v2 : Value)
    (s1 s2 : Bool) (h : (add db fs k v1 s1).1 = true) :
    (add (add db fs k v1 s1).2.1 fs' k v2 s2).1 = false ∧
    (add (add db fs k v1 s1).2.1 fs' k v2 s2).2.1 = (add db fs k v1 s1).2.1 ∧
    (add (add db fs k v1 s1).2.1 fs' k v2 s2).2.2 = fs' ∧
    dictLookup ((add db fs k v1 s1).2.1).datastore k = some v1 := by
  cases hm : dictMem db.datastore k with
  | true => simp [add, hm] at h
  | false =>
    simp only [dictMem] at hm
    simp [add, dictMem, hm, dictLookup_dictSet_self]

/-- Witness for C2 at a concrete input: inserting "a" into the empty store
succeeds, a second insert at "a" fails and the stored value stays. -/
theorem add_no_overwrite_witness :
    (add ⟨[], "f"⟩ [] "a" (Value.str "hello") false).1 = true ∧
    ((add ((add ⟨[], "f"⟩ [] "a" (Value.str "hello") false).2.1) [] "a"
        (Value.str "world") false).1 = false ∧
      (add ((add ⟨[], "f"⟩ [] "a" (Value.str "hello") false).2.1) [] "a"
        (Value.str "world") false).2.1 = (add ⟨[], "f"⟩ [] "a" (Value.str "hello") false).2.1 ∧
      (add ((add ⟨[], "f"⟩ [] "a" (Value.str "hello") false).2.1) [] "a"
        (Value.str "world") false).2.2 = [] ∧
      dictLookup ((add ⟨[], "f"⟩ [] "a" (Value.str "hello") false).2.1).datastore "a"
        = some (Value.str "hello")) :=
  ⟨rfl, add_no_overwrite ⟨[], "f"⟩ [] [] "a" (Value.str "hello") (Value.str "world")
    false false rfl⟩

/-- C6: constructing a `MicroDB` with `preload=True, exist=True` at a
location with no file raises, but with `PyError.typeError` — the source's
`raise(ValueError, "Filename does not exist")` raises a tuple, which
Python 3 rejects with `TypeError: exceptions must derive from
BaseException` — not the documented `ValueError` / the spec's distinct
`NotFoundError` kind.  No store is constructed (the result is an error,
not a store with an empty mapping). -/
theorem init_missing_file_raises_typeerror :
    init [] "missing.db" true true = .error PyError.typeError ∧
    PyError.typeError ≠ PyError.valueError ∧
    PyError.typeError ≠ PyError.notFoundError :=
  ⟨rfl, by decide, by decide⟩

/-- C7: `save` with an override path writes the snapshot to that path and
leaves the store's default location (`self.filename`) unchanged. -/
theorem save_override_preserves_location (db : Store) (fs : FS) (p : String) :
    ((save db fs (some p)).1).filename = db.filename ∧
    fsRead (save db fs (some p)).2 p = some db.datastore := by
  exact ⟨rfl, by simp [save, store_data, fsRead_fsWrite_self]⟩

/-- C8: `purge` leaves the in-memory mapping (indeed the whole store)
unchanged in every case, and its result is independent of the
`clear_datastore` argument — the parameter documented as clearing the
datastore is ignored by the implementation. -/
theorem purge_ignores_clear_datastore (db : Store) (fs : FS) (c c' : Bool) :
    (purge db fs c).2.1 = db ∧ purge db fs c = purge db fs c' := by
  constructor
  · unfold purge; split <;> rfl
  · rfl

/-- C9: `append_json` returns `True` for every parsed input file, every
store, every file system and both flag settings — no number of per-key
add/update failures changes the return value or aborts the loop. -/
theorem append_json_always_returns_true (db : Store) (fs : FS) (parsed : Snapshot)
    (s d : Bool) : (append_json db fs parsed s d).1 = true := rfl

/-- C10: the lookup and search operations `findkey`, `findkeys`, `find`
and `search` are read-only: they return the store (mapping and location)
and the file system exactly as given, so no snapshot is ever written. -/
theorem lookups_readonly (db : Store) (fs : FS) (k : String) (ks : List String)
    (d : Option Value) (m : String → Bool) :
    (findkey db fs k).2 = (db, fs) ∧
    (findkeys db fs ks).2 = (db, fs) ∧
    (find db fs d).2 = (db, fs) ∧
    (search db fs m).2 = (db, fs) :=
  ⟨rfl, rfl, rfl, rfl⟩

/-- C3 counterexample: in a store holding `"k" ↦ None`, `findkey "k"`
returns exactly the same result as `findkey` on an absent key — the
not-found indicator (the implicit `None` return) is conflated with the
stored nil value, refuting the claim that they are always
distinguishable. -/
theorem findkey_null_conflated :
    dictMem [("k", Value.null)] "k" = true ∧
    (findkey ⟨[("k", Value.null)], "f"⟩ [] "k").1
      = (findkey ⟨[("k", Value.null)], "f"⟩ [] "missing").1 ∧
    dictMem [("k", Value.null)] "missing" = false :=
  ⟨rfl, rfl, rfl⟩

/-- C3 amended: `findkey` returns the stored value when the key is present
and the sentinel `None` when it is absent; consequently its result is the
sentinel exactly when the key is absent OR the stored value is itself
`None` — a stored nil value is not distinguishable from not-found. -/
theorem findkey_sentinel_semantics (db : Store) (fs : FS) (k : String) :
    ((findkey db fs k).1 = Value.null ↔
      dictLookup db.datastore k = none ∨ dictLookup db.datastore k = some Value.null) ∧
    ∀ v, dictLookup db.datastore k = some v → (findkey db fs k).1 = v := by
  cases h : dictLookup db.datastore k with
  | none => simp [findkey, h]
  | some v => simp [findkey, h]

/-- Witness for C3 amended: a present key's (non-nil) value is returned. -/
theorem findkey_sentinel_semantics_witness :
    (findkey ⟨[("a", Value.int 7)], "f"⟩ [] "a").1 = Value.int 7 :=
  (findkey_sentinel_semantics ⟨[("a", Value.int 7)], "f"⟩ [] "a").2 (Value.int 7) rfl

/-- C4 counterexample: key `"a"` is present (stored value `0`), yet
`findkeys ["a"]` returns the empty list — a present key's value is not
always included, refuting the claim. -/
theorem findkeys_skips_falsy_value :
    dictMem [("a", Value.int 0)] "a" = true ∧
    (findkeys ⟨[("a", Value.int 0)], "f"⟩ [] ["a"]).1 = [] :=
  ⟨rfl, rfl⟩

/-- C4 amended: `findkeys` returns, in input order, the `findkey` results
of the requested keys that are truthy; keys that are absent (looking up to
the falsy `None`) and present keys whose stored value is falsy (`None`,
`False`, `0`, `""`, empty containers) are both skipped. -/
theorem findkeys_filters_truthy (db : Store) (fs : FS) (ks : List String) :
    (findkeys db fs ks).1
      = (ks.map (fun k => (findkey db fs k).1)).filter Value.truthy := by
  simpa [findkeys] using findkeys_foldl_eq db fs ks []

theorem search_subkey_go_ok (key : String) (m : String → Bool) :
    ∀ ds : Snapshot,
      (∀ p ∈ ds, ∃ fields, p.2 = Value.dict fields ∧
        ∀ w, dictLookup fields key = some w → ∃ s, w = Value.str s) →
      ∀ acc, search_subkey_go key m ds acc
        = .ok (acc ++ ds.filterMap (subkeyMatch key m)) := by
  intro ds
  induction ds with
  | nil => intro _ acc; simp [search_subkey_go]
  | cons p rest ih =>
    intro h acc
    obtain ⟨fields, hp2, hstr⟩ := h p (by simp)
    have hrest := fun q hq => h q (List.mem_cons_of_mem p hq)
    cases hm : dictLookup fields key with
    | none =>
      have hmem : dictMem fields key = false := by simp [dictMem, hm]
      simp [search_subkey_go, pyIn, hp2, hmem, subkeyMatch, hm, ih hrest]
    | some w =>
      obtain ⟨s, rfl⟩ := hstr w hm
      have hmem : dictMem fields key = true := by simp [dictMem, hm]
      by_cases hms : m s
      · simp [search_subkey_go, pyIn, pyIndex, reSearch, hp2, hmem, hm, hms,
          subkeyMatch, ih hrest]
      · simp [search_subkey_go, pyIn, pyIndex, reSearch, hp2, hmem, hm, hms,
          subkeyMatch, ih hrest]

/-- C1 counterexample: the store holds `"x" ↦ 0` (a stored value, so the
mapping contains key "x"), yet `append_json` of `{"x": 1, "y": 2}` with
`duplicate=True` overwrites `"x"` with `1`: because `if self.findkey(key):`
tests truthiness, a falsy stored value routes the present key to the
`update` branch, which succeeds — the mapping does not remain unchanged. -/
theorem append_json_overwrites_falsy_key :
    dictMem [("x", Value.int 0)] "x" = true ∧
    (append_json ⟨[("x", Value.int 0)], "f"⟩ [] [("x", Value.int 1), ("y", Value.int 2)]
        false true).2.1.datastore = [("x", Value.int 1)] :=
  ⟨rfl, rfl⟩

/-- C1 amended: for every store whose stored value at "x" is truthy and
that does not contain "y", `append_json` of `{"x": 1, "y": 2}` with
`duplicate=True` leaves the mapping unchanged — "x" is routed to the
add-only path (which fails, key present) and "y" to the update-only path
(which fails, key absent) — and both failures are logged (the failed-key
log is `["x", "y"]`), not raised, with the call still returning `True`.
When the stored value at "x" is falsy the update path overwrites it
instead. -/
theorem append_json_merge_noop (ds : Snapshot) (f : String) (fs : FS) (v : Value)
    (s : Bool) (hx : dictLookup ds "x" = some v) (hv : v.truthy = true)
    (hy : dictMem ds "y" = false) :
    (append_json ⟨ds, f⟩ fs [("x", Value.int 1), ("y", Value.int 2)] s true).1 = true ∧
    (append_json ⟨ds, f⟩ fs [("x", Value.int 1), ("y", Value.int 2)] s true).2.1.datastore
      = ds ∧
    (append_json ⟨ds, f⟩ fs [("x", Value.int 1), ("y", Value.int 2)] s true).2.2.2
      = ["x", "y"] := by
  have hly : dictLookup ds "y" = none := by
    cases hl : dictLookup ds "y" with
    | none => rfl
    | some w => simp [dictMem, hl] at hy
  have hmx : (dictLookup ds "x").isSome = true := by simp [hx]
  have hnull : Value.null.truthy = false := rfl
  simp [append_json, findkey, add, update, dictMem, hx, hv, hmx, hly, hnull]

/-- Witness for C1 amended at the store `{"x": "h"}`. -/
theorem append_json_merge_noop_witness :
    dictLookup [("x", Value.str "h")] "x" = some (Value.str "h") ∧
    (Value.str "h").truthy = true ∧
    dictMem [("x", Value.str "h")] "y" = false ∧
    ((append_json ⟨[("x", Value.str "h")], "f"⟩ []
        [("x", Value.int 1), ("y", Value.int 2)] false true).1 = true ∧
      (append_json ⟨[("x", Value.str "h")], "f"⟩ []
        [("x", Value.int 1), ("y", Value.int 2)] false true).2.1.datastore
        = [("x", Value.str "h")] ∧
      (append_json ⟨[("x", Value.str "h")], "f"⟩ []
        [("x", Value.int 1), ("y", Value.int 2)] false true).2.2.2 = ["x", "y"]) :=
  ⟨rfl, rfl, rfl,
    append_json_merge_noop [("x", Value.str "h")] "f" [] (Value.str "h") false rfl rfl rfl⟩

/-- C5 counterexample: an entry whose value is the number `5` is not
skipped — `key in v` on a number raises `TypeError` (argument of type
'int' is not iterable), so `search_subkey` fails instead of ignoring the
entry, refuting the claim that non-mapping values are skipped without
error. -/
theorem search_subkey_raises_on_number :
    search_subkey ⟨[("a", Value.int 5)], "f"⟩ "name" (fun _ => false)
      = .error PyError.typeError := rfl

/-- C5 amended: on stores whose values are all dictionaries (holding, when
they contain `subkey` at all, a string there), `search_subkey` raises
nothing, skips exactly the entries lacking `subkey`, and tests the
remaining entries' text against the pattern, collecting the outer keys
that match.  Entries whose value is not a mapping are not skipped in
general: a non-container value raises `TypeError` (see the
counterexample). -/
theorem search_subkey_on_dict_values (ds : Snapshot) (f : String) (key : String)
    (m : String → Bool)
    (h : ∀ p ∈ ds, ∃ fields, p.2 = Value.dict fields ∧
      ∀ w, dictLookup fields key = some w → ∃ s, w = Value.str s) :
    search_subkey ⟨ds, f⟩ key m = .ok (ds.filterMap (subkeyMatch key m)) := by
  simpa [search_subkey] using search_subkey_go_ok key m ds h []

/-- Witness for C5 amended: a two-entry all-dictionary store, where the
entry containing the subkey with a matching string is collected and the
entry lacking it is skipped. -/
theorem search_subkey_on_dict_values_witness :
    (∀ p ∈ ([("a", Value.dict [("name", Value.str "bob")]), ("b", Value.dict [])] : Snapshot),
      ∃ fields, p.2 = Value.dict fields ∧
        ∀ w, dictLookup fields "name" = some w → ∃ s, w = Value.str s) ∧
    search_subkey
        ⟨[("a", Value.dict [("name", Value.str "bob")]), ("b", Value.dict [])], "f"⟩
        "name" (fun s => s == "bob")
      = .ok ["a"] := by
  have h : ∀ p ∈ ([("a", Value.dict [("name", Value.str "bob")]),
      ("b", Value.dict [])] : Snapshot),
      ∃ fields, p.2 = Value.dict fields ∧
        ∀ w, dictLookup fields "name" = some w → ∃ s, w = Value.str s := by
    intro p hp
    rcases List.mem_cons.1 hp with rfl | hp
    · refine ⟨[("name", Value.str "bob")], rfl, fun w hw => ⟨"bob", ?_⟩⟩
      simp [dictLookup] at hw
      exact hw.symm
    · rcases List.mem_singleton.1 hp with rfl
      exact ⟨[], rfl, fun w hw => by simp [dictLookup] at hw⟩
  refine ⟨h, ?_⟩
  rw [search_subkey_on_dict_values _ "f" "name" _ h]
  rfl

end MicroDb
